import Mathlib

/-!
Verification of the text-processing backend (FastAPI service in `api.py`
with helper modules under `tools/`).

The Python code is shallowly embedded: strings are Lean `String`s
manipulated through their underlying `List Char`, machine-level calls to
external services (summarization model, translator, sentiment model,
scrapers, joke API) are oracle parameters of type `... → Option ...` /
`... → Except String ...` where `none` / `.error` models a raised
exception, and filesystem writes are recorded as explicit event lists.
Python `str.strip` / `str.split` / `str.lower` and the two regular
expressions used by the code are modelled by executable recursive
functions over `List Char`.
-/

namespace AutoEngine

/-- Model of Python whitespace for `str.strip` / `str.split` / `\s`
(ASCII whitespace: space, tab, newline, carriage return, vertical tab,
form feed). -/
def pyIsSpace (c : Char) : Bool :=
  c = ' ' || c = '\t' || c = '\n' || c = '\r' || c = '\x0b' || c = '\x0c'

/-- Strip leading and trailing whitespace from a character list
(model of Python `str.strip()`). -/
def stripList (l : List Char) : List Char :=
  ((l.dropWhile pyIsSpace).reverse.dropWhile pyIsSpace).reverse

/-- Model of Python `str.strip()` on `String`. -/
def pyStrip (s : String) : String :=
  ⟨stripList s.data⟩

/-- Model of Python `str.lower()` (ASCII case folding). -/
def pyLower (s : String) : String :=
  ⟨s.data.map Char.toLower⟩

/-- Maximal runs of characters satisfying `p`; helper with an accumulator
holding the current (reversed) run. -/
def runsAux (p : Char → Bool) : List Char → List Char → List (List Char)
  | [], acc => if acc.isEmpty then [] else [acc.reverse]
  | c :: rest, acc =>
    if p c then
      runsAux p rest (c :: acc)
    else if acc.isEmpty then
      runsAux p rest []
    else
      acc.reverse :: runsAux p rest []

/-- Maximal runs of characters satisfying `p` in a character list. -/
def runsOf (p : Char → Bool) (l : List Char) : List (List Char) :=
  runsAux p l []

/-- Model of Python `str.split()` with no separator: the maximal
non-whitespace runs, as strings. -/
def pySplitWS (s : String) : List String :=
  (runsOf (fun c => !(pyIsSpace c)) s.data).map (fun l => (⟨l⟩ : String))

/-- The `tools/text_stats.py` function `get_text_stats`: strip the text;
if nothing is left return `(0, 0)`, otherwise return the length of the
stripped text and the number of its whitespace-delimited tokens. -/
def get_text_stats (text : String) : Nat × Nat :=
  let t := pyStrip text
  if t = "" then (0, 0)
  else (t.length, (pySplitWS t).length)

/-- The `tools/job_analyzer.py` function `estimate_job_fit`:
20 for no skills, otherwise `min (40 + 7 * count) 95`. -/
def estimate_job_fit (skills : List String) : Nat :=
  if skills = [] then 20
  else min (40 + 7 * skills.length) 95

/-- Sentence-ending characters of the regular expression
`(?<=[\.!\?؟])\s+` used by `simple_summary` in `tools/ai_tools.py`. -/
def isSentEnd (c : Char) : Bool :=
  c = '.' || c = '!' || c = '?' || c = '؟'

theorem length_dropWhile_le (p : Char → Bool) (l : List Char) :
    (l.dropWhile p).length ≤ l.length := by
  induction l with
  | nil => simp [List.dropWhile]
  | cons c rest ih =>
    simp only [List.dropWhile]
    split
    · exact Nat.le_trans ih (Nat.le_succ _)
    · simp

/-- Model of `re.split(r'(?<=[\.!\?؟])\s+', text)`: walking the text, a
maximal whitespace run whose preceding character is a sentence ender is a
delimiter.  `acc` holds the current piece, reversed. -/
def splitSentAux : List Char → List Char → List (List Char)
  | [], acc => [acc.reverse]
  | c :: rest, acc =>
    if (match acc with | p :: _ => isSentEnd p | [] => false) && pyIsSpace c then
      acc.reverse :: splitSentAux (rest.dropWhile pyIsSpace) []
    else
      splitSentAux rest (c :: acc)
  termination_by l _ => l.length
  decreasing_by
    · simp only [List.length_cons]
      exact Nat.lt_succ_of_le (length_dropWhile_le pyIsSpace rest)
    · simp

/-- Sentence split of `simple_summary` (`tools/ai_tools.py`, line 59). -/
def splitSentences (l : List Char) : List (List Char) :=
  splitSentAux l []

/-- Index of the last ASCII space in a character list
(model of Python `str.rfind(" ")`; `none` models the result `-1`). -/
def rfindSpace (l : List Char) : Option Nat :=
  (l.enum).foldl (fun acc ic => if ic.2 = ' ' then some ic.1 else acc) none

/-- The truncation step of `simple_summary` (`tools/ai_tools.py`,
lines 63-68): cut to `max_chars` characters, cut back to the last space
if there is one, and append the three-character ellipsis. -/
def truncAtSpace (maxChars : Nat) (l : List Char) : List Char :=
  let cut := l.take maxChars
  let cut2 :=
    match rfindSpace cut with
    | some i => cut.take i
    | none => cut
  cut2 ++ ['.', '.', '.']

/-- The sentence-limited excerpt built by `simple_summary` on input whose
stripped form is longer than `max_chars`: first `max_sentences` sentences
joined by single spaces and stripped, truncated at a space with an
ellipsis appended if still longer than `max_chars`. -/
def sentenceExcerpt (maxSentences maxChars : Nat) (stripped : List Char) : List Char :=
  let joined := stripList (List.intercalate [' '] ((splitSentences stripped).take maxSentences))
  if joined.length > maxChars then truncAtSpace maxChars joined else joined

/-- The `tools/ai_tools.py` fallback summarizer `simple_summary`: return
the stripped text if it fits in `max_chars` characters, otherwise a
sentence-limited excerpt. -/
def simple_summary (text : String) (max_sentences : Nat := 3) (max_chars : Nat := 400) :
    String :=
  let t := stripList text.data
  if t.isEmpty then ""
  else if t.length ≤ max_chars then ⟨t⟩
  else ⟨sentenceExcerpt max_sentences max_chars t⟩

/-- Truncation to `MAX_INPUT_CHARS = 4000` characters applied by
`summarize_text` before calling the model (`tools/ai_tools.py` line 83). -/
def truncInput (s : String) : String :=
  if s.length > 4000 then ⟨s.data.take 4000⟩ else s

/-- The `tools/ai_tools.py` heuristic `is_mostly_english`: at least 60%
of the alphabetic characters are ASCII letters.  Python's Unicode
`str.isalpha` is supplied as the parameter `isalpha`; the float-valued
threshold `0.6` is modelled by the exact comparison `3 * letters ≤ 5 *
english`. -/
def is_mostly_english (isalpha : Char → Bool) (text : String) : Bool :=
  let letters := text.data.filter isalpha
  if letters.isEmpty then false
  else
    let english := letters.filter Char.isAlpha
    3 * letters.length ≤ 5 * english.length

/-- The `tools/ai_tools.py` function `summarize_text`.  The global model
`summarizer_en` is the oracle parameter `summarizer`: `none` when the
model failed to load, `some f` when available, where `f t = none` models
the model call raising and `f t = some r` models it returning summary
`r`.  Strip the text; texts of stripped length below 20 are returned as
they are; longer texts are truncated to 4000 characters and summarized by
the model when it is available and the text is mostly English, with
`simple_summary` as the fallback in every other case. -/
def summarize_text (isalpha : Char → Bool)
    (summarizer : Option (String → Option String)) (text : String) : String :=
  let t := pyStrip text
  if t.length < 20 then t
  else
    let t2 := truncInput t
    match summarizer with
    | some f =>
      if is_mostly_english isalpha t2 then
        match f t2 with
        | some r => r
        | none => simple_summary t2
      else simple_summary t2
    | none => simple_summary t2

/-- The record returned by `translate_text` in `tools/ai_tools.py`
(Python dict with keys source_lang / target_lang / original /
translated; `source_lang` is `None` exactly on empty input). -/
structure TranslationRecord where
  source_lang : Option String
  target_lang : String
  original : String
  translated : String
deriving DecidableEq, Repr

/-- The `tools/ai_tools.py` function `translate_text`.  The external
`GoogleTranslator` calls are the oracles `detect` and `translate`, with
`none` modelling a raised exception.  Empty stripped input yields the
all-empty record; otherwise detection failure falls back to the sentinel
`"auto"` and translation failure falls back to the original text. -/
def translate_text (detect translate : String → Option String)
    (text : String) (target_lang : String := "en") : TranslationRecord :=
  let t := pyStrip text
  if t = "" then ⟨none, target_lang, "", ""⟩
  else
    let src :=
      match detect t with
      | some lang => lang
      | none => "auto"
    let tr :=
      match translate t with
      | some r => r
      | none => t
    ⟨some src, target_lang, t, tr⟩

/-- Values stored in the Python dicts the handlers pass around: strings,
numbers (the float scores are modelled as rationals) and `None`. -/
inductive PyVal where
  | str (s : String)
  | num (q : ℚ)
  | pyNone
deriving DecidableEq, Repr

/-- Exceptions a handler can raise: `ValueError`, `KeyError` on a missing
dict key, and any other exception. -/
inductive PyErr where
  | valueError (msg : String)
  | keyError (key : String)
  | exception (msg : String)
deriving DecidableEq, Repr

/-- The `tools/sentiment.py` helper `guess_language`: `"fa"` when the
text has a character in the Arabic block U+0600-U+06FF, `"en"` when every
character is ASCII, `"unknown"` otherwise. -/
def guess_language (text : String) : String :=
  if text.data.any (fun c => 0x600 ≤ c.toNat && c.toNat ≤ 0x6FF) then "fa"
  else if text.data.all (fun c => c.toNat < 128) then "en"
  else "unknown"

/-- The `tools/sentiment.py` function `analyze_sentiment` — the variant
`api.py` imports.  The `GoogleTranslator` call is the oracle `translator`
and the `sentiment_en` model call is the oracle `model` (returning label
and score), `none` modelling a raised exception.  Raises `ValueError` on
input whose stripped form has fewer than 3 characters; returns a dict
with keys `language`, `label`, `score`, `translated_text` — and no `note`
key. -/
def sentiment_analyze (translator : String → Option String)
    (model : String → Option (String × ℚ)) (text : String) :
    Except PyErr (List (String × PyVal)) :=
  if text = "" || (pyStrip text).length < 3 then
    .error (.valueError "Text is too short for sentiment analysis.")
  else
    let lang := guess_language text
    let (english_text, translated_text) :=
      if lang ≠ "en" then
        match translator text with
        | some t => (t, PyVal.str t)
        | none => (text, PyVal.pyNone)
      else (text, PyVal.pyNone)
    match model ⟨english_text.data.take 512⟩ with
    | none => .error (.exception "sentiment model failed")
    | some (label, score) =>
      .ok [("language", .str lang), ("label", .str label),
           ("score", .num score), ("translated_text", translated_text)]

/-- Subscript access `d[k]` on a Python dict: `KeyError` when absent. -/
def dictGet (d : List (String × PyVal)) (k : String) : Except PyErr PyVal :=
  match d.lookup k with
  | some v => .ok v
  | none => .error (.keyError k)

/-- The response model `SentimentResponse` of `api.py` (fields label,
score, note). -/
structure SentimentResponse where
  label : String
  score : ℚ
  note : String
deriving DecidableEq, Repr

/-- The `POST /sentiment` handler of `api.py`: call `analyze_sentiment`
from `tools/sentiment.py` (no try/except, so its exceptions propagate out
of the handler) and build `SentimentResponse` from `data["label"]`,
`data["score"]` and `data["note"]`. -/
def sentiment_ep (translator : String → Option String)
    (model : String → Option (String × ℚ)) (text : String) :
    Except PyErr SentimentResponse := do
  let data ← sentiment_analyze translator model text
  let l ← dictGet data "label"
  let s ← dictGet data "score"
  let n ← dictGet data "note"
  match l, s, n with
  | .str ls, .num sq, .str ns => pure ⟨ls, sq, ns⟩
  | _, _, _ => .error (.exception "response validation failed")

/-- The stopword set of `extract_keywords_simple` in `api.py`. -/
def stopwords : List String :=
  ["the", "and", "for", "with", "that", "this", "from", "have", "has",
   "are", "was", "were", "will", "would", "can", "could", "should",
   "about", "into", "onto", "over", "under", "than", "then", "them",
   "they", "you", "your", "yours", "our", "ours", "his", "her", "its",
   "not", "but", "all", "any", "some", "more", "most", "many",
   "such", "very", "also", "just", "like", "one", "two", "three"]

/-- Tokenization of `extract_keywords_simple`: the matches of
`re.findall(r"[a-zA-Z]{3,}", text.lower())`, i.e. the maximal runs of
ASCII letters of length at least 3 in the lowercased text. -/
def kwTokens (text : String) : List String :=
  ((runsOf Char.isAlpha (pyLower text).data).filter (fun r => 3 ≤ r.length)).map
    (fun r => (⟨r⟩ : String))

/-- Tokens surviving the stopword filter. -/
def kwFiltered (text : String) : List String :=
  (kwTokens text).filter (fun t => !(stopwords.contains t))

/-- One step of `collections.Counter`: increment the count of `w`,
appending a fresh key at the end on first occurrence (Python dicts
preserve insertion order). -/
def bumpCount : List (String × Nat) → String → List (String × Nat)
  | [], w => [(w, 1)]
  | (k, n) :: rest, w =>
    if k = w then (k, n + 1) :: rest else (k, n) :: bumpCount rest w

/-- Model of `collections.Counter` over a token list: association list
in first-encountered key order. -/
def countOcc (l : List String) : List (String × Nat) :=
  l.foldl bumpCount []

/-- Stable descending insertion by count: the new entry goes after every
entry with a count at least as large. -/
def insertDesc (x : String × Nat) : List (String × Nat) → List (String × Nat)
  | [] => [x]
  | y :: ys => if y.2 < x.2 then x :: y :: ys else y :: insertDesc x ys

/-- Stable sort by descending count, the model of the ordering used by
`Counter.most_common` (count descending, ties in first-encountered
order). -/
def sortByCountDesc (l : List (String × Nat)) : List (String × Nat) :=
  l.foldl (fun acc x => insertDesc x acc) []

/-- The `api.py` helper `extract_keywords_simple`: lowercase, tokenize
into alphabetic runs of length at least 3, drop stopwords, count, and
return the `top_n` most frequent tokens. -/
def extract_keywords_simple (text : String) (top_n : Nat := 10) : List String :=
  ((sortByCountDesc (countOcc (kwFiltered text))).take top_n).map Prod.fst

/-- Substring membership on character lists, model of Python's
`sub in s`: some suffix of `l` starts with `sub`. -/
def containsSub : List Char → List Char → Bool
  | [], sub => sub.isEmpty
  | c :: rest, sub => sub.isPrefixOf (c :: rest) || containsSub rest sub

/-- Python `sub in s` on strings. -/
def strContains (s sub : String) : Bool :=
  containsSub s.data sub.data

/-- The fixed skill keyword list of `find_skills`
(`tools/job_analyzer.py`). -/
def SKILL_KEYWORDS : List String :=
  ["python", "java", "javascript", "react", "vue",
   "docker", "kubernetes", "sql", "nosql", "linux",
   "machine learning", "deep learning",
   "data analysis", "api", "cloud", "aws", "azure",
   "fastapi", "flask", "django"]

/-- The fixed language list of `find_languages`
(`tools/job_analyzer.py`). -/
def LANGS : List String :=
  ["english", "german", "french", "arabic", "persian", "norwegian"]

/-- The fixed technology list of `find_technologies`
(`tools/job_analyzer.py`). -/
def TECH : List String :=
  ["aws", "gcp", "azure",
   "docker", "kubernetes",
   "tensorflow", "pytorch",
   "fastapi", "flask", "django",
   "postgres", "mysql", "mongodb",
   "redis"]

/-- Ordered insertion for the model of Python `sorted` on strings. -/
def insertLe (x : String) : List String → List String
  | [] => [x]
  | y :: ys => if x ≤ y then x :: y :: ys else y :: insertLe x ys

/-- Model of Python `sorted` on a list of strings (lexicographic,
code-point order). -/
def sortStr (l : List String) : List String :=
  l.foldr insertLe []

/-- The `tools/job_analyzer.py` function `find_skills`: keywords of the
fixed list occurring in the lowercased text, deduplicated and sorted
(`sorted(set(found))`). -/
def find_skills (text : String) : List String :=
  sortStr (List.dedup (SKILL_KEYWORDS.filter (fun k => strContains (pyLower text) k)))

/-- The `tools/job_analyzer.py` function `find_languages`: languages of
the fixed list occurring in the lowercased text, in the order of the
fixed list (the loop appends as it scans `LANGS`; no sorting). -/
def find_languages (text : String) : List String :=
  LANGS.filter (fun lang => strContains (pyLower text) lang)

/-- The `tools/job_analyzer.py` function `find_technologies`: entries of
the fixed list occurring in the lowercased text, deduplicated and sorted. -/
def find_technologies (text : String) : List String :=
  sortStr (List.dedup (TECH.filter (fun k => strContains (pyLower text) k)))

/-- Modelled from the spec: `tools/cleaner.py` (`clean_text`) is imported
by `api.py` and `main.py` but the module is not among the sources.  Spec
§4.1 ("at minimum, trim, collapse internal whitespace"): the
whitespace-delimited tokens joined by single spaces. -/
def clean_text (s : String) : String :=
  ⟨List.intercalate [' '] (runsOf (fun c => !(pyIsSpace c)) s.data)⟩

/-- An `HTTPException` raised by a handler: status code and detail. -/
structure HTTPError where
  status : Nat
  detail : String
deriving DecidableEq, Repr

/-- Filesystem side effects of the `/process_text` handler: the two
append-only logs and the three report files. -/
inductive SideEffect where
  | logLine (raw cleaned : String)
  | logJsonEntry (raw cleaned : String)
  | reportTxt (cleaned : String) (chars words : Nat) (setup punchline : String)
  | reportJson (cleaned : String) (chars words : Nat) (setup punchline : String)
  | reportCsv (cleaned : String) (chars words : Nat) (setup punchline : String)
deriving DecidableEq, Repr

/-- The time-derived report filenames returned by `save_txt`, `save_json`
and `save_csv` (`tools/report_generator.py`), supplied by the
environment. -/
structure ReportPaths where
  txt : String
  json : String
  csv : String
deriving DecidableEq, Repr

/-- The response model `ProcessResponse` of `api.py`. -/
structure ProcessResponse where
  cleaned : String
  characters : Nat
  words : Nat
  joke_setup : String
  joke_punchline : String
  report_txt : String
  report_json : String
  report_csv : String
deriving DecidableEq, Repr

/-- The `POST /process_text` handler of `api.py`: reject stripped input
shorter than 3 characters with a 400 before any filesystem write;
otherwise clean, log to both logs, compute stats, fetch a joke (empty
strings on failure) and write the three reports.  The second component
lists the filesystem writes performed. -/
def process_text (joke : Option (String × String)) (paths : ReportPaths)
    (text : String) : Except HTTPError ProcessResponse × List SideEffect :=
  if (pyStrip text).length < 3 then
    (.error ⟨400, "Text is too short."⟩, [])
  else
    let cleaned := clean_text text
    let (nc, nw) := get_text_stats cleaned
    let (setup, punchline) := joke.getD ("", "")
    (.ok ⟨cleaned, nc, nw, setup, punchline, paths.txt, paths.json, paths.csv⟩,
     [.logLine text cleaned, .logJsonEntry text cleaned,
      .reportTxt cleaned nc nw setup punchline,
      .reportJson cleaned nc nw setup punchline,
      .reportCsv cleaned nc nw setup punchline])

/-- The scheme check shared by the URL endpoints of `api.py`:
`url.startswith("http://") or url.startswith("https://")`. -/
def startsHttp (u : String) : Bool :=
  "http://".data.isPrefixOf u.data || "https://".data.isPrefixOf u.data

/-- The response model `ScrapeResponse` of `api.py` (`/scrape_url_ai`). -/
structure ScrapeAIResponse where
  url : String
  domain : String
  cleaned : String
  characters : Nat
  words : Nat
  summary : String
  summary_translated : Option String
deriving DecidableEq, Repr

/-- The `POST /scrape_url_ai` handler of `api.py`.  The
`tools/scraper.py` call `scrape_url` is the oracle `basicScrape`,
returning extracted text and domain, `.error e` modelling a raised
exception with message `e`.  Scheme check first (400), scrape (failure is
a 500), then reject stripped extracted text shorter than 20 characters
(400), then clean/stats/summary and optional translation of the
summary. -/
def scrape_url_ai (basicScrape : String → Except String (String × String))
    (isalpha : Char → Bool) (summarizer : Option (String → Option String))
    (detect translate : String → Option String)
    (url : String) (translate_to : Option String) :
    Except HTTPError ScrapeAIResponse :=
  let u := pyStrip url
  if !(startsHttp u) then .error ⟨400, "URL must start with http:// or https://"⟩
  else
    match basicScrape u with
    | .error e => .error ⟨500, "Error scraping URL: " ++ e⟩
    | .ok (extracted, domain) =>
      if (pyStrip extracted).length < 20 then
        .error ⟨400, "Extracted text is too short to analyze."⟩
      else
        let cleaned := clean_text extracted
        let (nc, nw) := get_text_stats cleaned
        let summary := summarize_text isalpha summarizer cleaned
        let st :=
          match translate_to with
          | some tt =>
            if pyStrip tt ≠ "" then
              some ((translate_text detect translate summary (pyStrip tt)).translated)
            else none
          | none => none
        .ok ⟨u, domain, cleaned, nc, nw, summary, st⟩

/-- Model of Python `text.split("\n")`. -/
def splitOnNl : List Char → List (List Char)
  | [] => [[]]
  | c :: rest =>
    if c = '\n' then [] :: splitOnNl rest
    else
      match splitOnNl rest with
      | [] => [[c]]
      | h :: t => (c :: h) :: t

/-- The CSV rows written by `/scrape_to_csv`: each stripped non-empty
line of the scraped text becomes a row `(index, url, line)`, indices
starting at 1 and counting only written rows. -/
def csvRowsAux (url : String) (idx : Nat) : List (List Char) → List (Nat × String × String)
  | [] => []
  | ln :: rest =>
    let s := stripList ln
    if s.isEmpty then csvRowsAux url idx rest
    else (idx, url, (⟨s⟩ : String)) :: csvRowsAux url (idx + 1) rest

/-- The `POST /scrape_to_csv` handler of `api.py`.  The Playwright call
`scrape_plain_text` is the oracle `scrape`; `filename` is the
uuid-derived CSV path.  Scheme check (400), scrape (500 on failure),
reject stripped text shorter than 10 characters (400), otherwise write
the rows and return the path. -/
def scrape_to_csv (scrape : String → Except String String) (filename : String)
    (url : String) : Except HTTPError (String × List (Nat × String × String)) :=
  let u := pyStrip url
  if !(startsHttp u) then .error ⟨400, "URL must start with http:// or https://"⟩
  else
    match scrape u with
    | .error e => .error ⟨500, "Error scraping URL: " ++ e⟩
    | .ok text =>
      if (pyStrip text).length < 10 then
        .error ⟨400, "Extracted text is too short to save."⟩
      else .ok (filename, csvRowsAux u 1 (splitOnNl text.data))

/-- Drop characters up to and including the first `"://"`. -/
def dropScheme : List Char → Option (List Char)
  | [] => none
  | c :: rest =>
    if [':', '/', '/'].isPrefixOf (c :: rest) then some (rest.drop 2)
    else dropScheme rest

/-- Model of `urlparse(url).netloc` for http/https URLs: the part after
`"://"` up to the first `/`, `?` or `#`. -/
def urlNetloc (u : String) : String :=
  match dropScheme u.data with
  | none => ""
  | some r => ⟨r.takeWhile (fun c => !(c = '/' || c = '?' || c = '#'))⟩

/-- The response model `URLAIResponse` of `api.py` (`/analyze_url_ai`). -/
structure URLAIResponse where
  url : String
  domain : String
  characters : Nat
  words : Nat
  summary : String
  summary_translated : Option String
  keywords : List String
deriving DecidableEq, Repr

/-- The `POST /analyze_url_ai` handler of `api.py`.  The Playwright call
is the oracle `scrape`.  Scheme check (400), scrape (500 on failure),
reject stripped text shorter than 50 characters (400), then
clean/stats/summary, optional best-effort translation of the summary and
keyword extraction. -/
def analyze_url_ai (scrape : String → Except String String)
    (isalpha : Char → Bool) (summarizer : Option (String → Option String))
    (detect translate : String → Option String)
    (url : String) (translate_to : Option String) :
    Except HTTPError URLAIResponse :=
  let u := pyStrip url
  if !(startsHttp u) then .error ⟨400, "URL must start with http:// or https://"⟩
  else
    let domain := urlNetloc u
    match scrape u with
    | .error e => .error ⟨500, "Error scraping URL: " ++ e⟩
    | .ok raw =>
      if (pyStrip raw).length < 50 then
        .error ⟨400, "Extracted text is too short to analyze."⟩
      else
        let cleaned := clean_text raw
        let (nc, nw) := get_text_stats cleaned
        let summary := summarize_text isalpha summarizer cleaned
        let st :=
          match translate_to with
          | some tt =>
            if pyStrip tt ≠ "" then
              some ((translate_text detect translate summary (pyStrip tt)).translated)
            else none
          | none => none
        .ok ⟨u, domain, nc, nw, summary, st, extract_keywords_simple cleaned 10⟩

/-- The response model `JobAnalysisResponse` of `api.py`. -/
structure JobAnalysisResponse where
  url : String
  characters : Nat
  words : Nat
  summary : String
  summary_translated : String
  skills : List String
  languages : List String
  tech_stack : List String
  job_fit_score : Nat
deriving DecidableEq, Repr

/-- The `tools/job_analyzer.py` pipeline `analyze_job_url`.  The combined
extractor `extract_text_from_url` (Playwright with a requests fallback,
both cleaned, `""` when everything fails) is the oracle `extract`.
Extracted text shorter than 50 characters yields the error record;
otherwise summary, Persian translation of the summary, keyword scans and
the fit score. -/
def analyze_job_url (extract : String → String)
    (isalpha : Char → Bool) (summarizer : Option (String → Option String))
    (detect translate : String → Option String)
    (url : String) : Except String JobAnalysisResponse :=
  let raw := extract url
  if raw.length < 50 then .error "Could not extract enough text from URL."
  else
    let summary := summarize_text isalpha summarizer raw
    let summary_fa := (translate_text detect translate summary "fa").translated
    .ok ⟨url, raw.length, (pySplitWS raw).length, summary, summary_fa,
         find_skills raw, find_languages raw, find_technologies raw,
         estimate_job_fit (find_skills raw)⟩

/-- The `POST /analyze_job` handler of `api.py`: scheme check (400), then
`analyze_job_url`, whose error record is surfaced as a 400. -/
def analyze_job_ep (extract : String → String)
    (isalpha : Char → Bool) (summarizer : Option (String → Option String))
    (detect translate : String → Option String)
    (url : String) : Except HTTPError JobAnalysisResponse :=
  let u := pyStrip url
  if !(startsHttp u) then .error ⟨400, "URL must start with http:// or https://"⟩
  else
    match analyze_job_url extract isalpha summarizer detect translate u with
    | .error msg => .error ⟨400, msg⟩
    | .ok r => .ok r

/-- The `/scrape_url` response dict of `api.py`. -/
structure ScrapeRawResponse where
  url : String
  text_length : Nat
  preview : String
  full_text : String
deriving DecidableEq, Repr

/-- The `POST /scrape_url` handler of `api.py`: no scheme check and no
minimum-content check; the Playwright call is unguarded, so a scrape
failure propagates as an unhandled exception. -/
def scrape_url_ep (scrape : String → Except String String) (url : String) :
    Except PyErr ScrapeRawResponse :=
  let u := pyStrip url
  match scrape u with
  | .error e => .error (.exception e)
  | .ok text => .ok ⟨u, text.length, ⟨text.data.take 500⟩, text⟩

/-- Finite conjunction of a predicate over a list (used instead of a
bounded quantifier in claim statements). -/
def AllElems (p : α → Prop) : List α → Prop
  | [] => True
  | a :: t => p a ∧ AllElems p t

theorem allElems_iff {p : α → Prop} {l : List α} :
    AllElems p l ↔ ∀ a ∈ l, p a := by
  induction l with
  | nil => simp [AllElems]
  | cons a t ih => simp [AllElems, ih]

/-- Token-counting state machine: the number of whitespace-delimited
tokens in a character list, with `inWord` recording whether the previous
character was part of a token. -/
def countTokens : List Char → Bool → Nat
  | [], _ => 0
  | c :: rest, inWord =>
    if pyIsSpace c then countTokens rest false
    else (if inWord then 0 else 1) + countTokens rest true

theorem runsAux_length (l : List Char) :
    ∀ acc, (runsAux (fun c => !(pyIsSpace c)) l acc).length
      = countTokens l (!acc.isEmpty) + (if acc.isEmpty then 0 else 1) := by
  induction l with
  | nil =>
    intro acc
    cases acc <;> simp [runsAux, countTokens]
  | cons c rest ih =>
    intro acc
    by_cases hc : pyIsSpace c
    · cases acc with
      | nil => simp [runsAux, countTokens, hc, ih]
      | cons a as => simp [runsAux, countTokens, hc, ih]
    · cases acc with
      | nil => simp [runsAux, countTokens, hc, ih]; omega
      | cons a as => simp [runsAux, countTokens, hc, ih]

theorem pySplitWS_length (s : String) :
    (pySplitWS s).length = countTokens s.data false := by
  simp [pySplitWS, runsOf, runsAux_length, List.isEmpty]

theorem runsAux_allspace (l : List Char) (hl : ∀ c ∈ l, pyIsSpace c) :
    ∀ acc, runsAux (fun c => !(pyIsSpace c)) l acc
      = if acc.isEmpty then [] else [acc.reverse] := by
  induction l with
  | nil => intro acc; simp [runsAux]
  | cons c rest ih =>
    intro acc
    have hc : pyIsSpace c := hl c (by simp)
    have hrest : ∀ x ∈ rest, pyIsSpace x := fun x hx => hl x (by simp [hx])
    cases acc with
    | nil => simp [runsAux, hc, ih hrest]
    | cons a as => simp [runsAux, hc, ih hrest]

theorem runsAux_append_space (ws : List Char) (hws : ∀ c ∈ ws, pyIsSpace c)
    (l : List Char) :
    ∀ acc, runsAux (fun c => !(pyIsSpace c)) (l ++ ws) acc
      = runsAux (fun c => !(pyIsSpace c)) l acc := by
  induction l with
  | nil =>
    intro acc
    rw [List.nil_append]
    rw [runsAux_allspace ws hws acc]
    cases acc <;> simp [runsAux]
  | cons c rest ih =>
    intro acc
    by_cases hc : pyIsSpace c
    · cases acc with
      | nil => simp [runsAux, hc, ih]
      | cons a as => simp [runsAux, hc, ih]
    · simp [runsAux, hc, ih]

theorem runsOf_dropLeading (l : List Char) :
    runsOf (fun c => !(pyIsSpace c)) (l.dropWhile pyIsSpace)
      = runsOf (fun c => !(pyIsSpace c)) l := by
  induction l with
  | nil => rfl
  | cons c rest ih =>
    by_cases hc : pyIsSpace c
    · rw [List.dropWhile_cons, if_pos hc, ih]
      simp [runsOf, runsAux, hc]
    · rw [List.dropWhile_cons, if_neg hc]

theorem mem_takeWhile_space (l : List Char) :
    ∀ c ∈ l.takeWhile pyIsSpace, pyIsSpace c := by
  induction l with
  | nil => simp [List.takeWhile]
  | cons a t ih =>
    simp only [List.takeWhile]
    split
    · intro c hc
      rcases List.mem_cons.mp hc with h | h
      · subst h; assumption
      · exact ih c h
    · simp

theorem runsOf_strip (l : List Char) :
    runsOf (fun c => !(pyIsSpace c)) (stripList l)
      = runsOf (fun c => !(pyIsSpace c)) l := by
  have hsplit : l.dropWhile pyIsSpace
      = stripList l ++ ((l.dropWhile pyIsSpace).reverse.takeWhile pyIsSpace).reverse := by
    unfold stripList
    rw [← List.reverse_append, List.takeWhile_append_dropWhile, List.reverse_reverse]
  have hws : ∀ c ∈ ((l.dropWhile pyIsSpace).reverse.takeWhile pyIsSpace).reverse,
      pyIsSpace c := by
    intro c hc
    exact mem_takeWhile_space _ c (List.mem_reverse.mp hc)
  calc runsOf (fun c => !(pyIsSpace c)) (stripList l)
      = runsOf (fun c => !(pyIsSpace c))
          (stripList l ++ ((l.dropWhile pyIsSpace).reverse.takeWhile pyIsSpace).reverse) :=
        (runsAux_append_space _ hws _ _).symm
    _ = runsOf (fun c => !(pyIsSpace c)) (l.dropWhile pyIsSpace) := by rw [← hsplit]
    _ = runsOf (fun c => !(pyIsSpace c)) l := runsOf_dropLeading l

theorem pySplitWS_strip (s : String) :
    pySplitWS (pyStrip s) = pySplitWS s := by
  simp [pySplitWS, pyStrip, runsOf_strip]

theorem estimate_fit_bounds (v : List String) :
    20 ≤ estimate_job_fit v ∧ estimate_job_fit v ≤ 95 := by
  unfold estimate_job_fit
  split
  · omega
  · rename_i hv
    have h1 : 1 ≤ v.length := List.length_pos.mpr hv
    constructor
    · exact le_min (by omega) (by omega)
    · exact min_le_right _ _

/-- Claim C7: `estimate_job_fit` equals `min 95 (40 + 7 * |skills|)` on
non-empty skill lists and 20 on the empty list, is monotonically
non-decreasing in the number of skills, and always lies in `[20, 95]`.
(`tools/job_analyzer.py`, `estimate_job_fit`.) -/
theorem claim_C7_fit_score (s t u : List String) (hs : s ≠ [])
    (hlen : t.length ≤ u.length) :
    estimate_job_fit s = min 95 (40 + 7 * s.length) ∧
    estimate_job_fit ([] : List String) = 20 ∧
    estimate_job_fit t ≤ estimate_job_fit u ∧
    (∀ v : List String, 20 ≤ estimate_job_fit v ∧ estimate_job_fit v ≤ 95) := by
  refine ⟨?_, rfl, ?_, estimate_fit_bounds⟩
  · simp [estimate_job_fit, hs, Nat.min_comm]
  · by_cases ht : t = []
    · subst ht
      exact (estimate_fit_bounds u).1
    · have hu : u ≠ [] := by
        intro h
        subst h
        exact ht (List.length_eq_zero.mp (Nat.le_zero.mp hlen))
      simp only [estimate_job_fit, if_neg ht, if_neg hu]
      exact min_le_min (by omega) le_rfl

/-- Witness for C7 at concrete inputs. -/
theorem claim_C7_fit_score_witness :
    (["python"] ≠ ([] : List String)) ∧
    (([] : List String).length ≤ (["a"] : List String).length) ∧
    (estimate_job_fit ["python"]
        = min 95 (40 + 7 * (["python"] : List String).length) ∧
      estimate_job_fit ([] : List String) = 20 ∧
      estimate_job_fit ([] : List String) ≤ estimate_job_fit ["a"] ∧
      (∀ v : List String, 20 ≤ estimate_job_fit v ∧ estimate_job_fit v ≤ 95)) :=
  ⟨by decide, by decide,
    claim_C7_fit_score ["python"] [] ["a"] (by decide) (by decide)⟩

/-- Claim C2: `/process_text` on input whose stripped text has fewer
than 3 characters fails with a 400 and detail "Text is too short.", and
performs no filesystem write (no report files, no log appends).
(`api.py`, `process_text`.) -/
theorem claim_C2_short_text (joke : Option (String × String))
    (paths : ReportPaths) (t : String) (h : (pyStrip t).length < 3) :
    process_text joke paths t = (.error ⟨400, "Text is too short."⟩, []) := by
  unfold process_text
  rw [if_pos h]

/-- Witness for C2: the two-character input "ok". -/
theorem claim_C2_short_text_witness :
    ((pyStrip "ok").length < 3) ∧
    process_text none ⟨"reports/a.txt", "reports/a.json", "reports/a.csv"⟩ "ok"
      = (.error ⟨400, "Text is too short."⟩, []) :=
  ⟨by decide,
    claim_C2_short_text none ⟨"reports/a.txt", "reports/a.json", "reports/a.csv"⟩
      "ok" (by decide)⟩

theorem string_mk_ne_empty {l : List Char} (h : (⟨l⟩ : String) ≠ "") :
    l ≠ [] := by
  intro hl
  subst hl
  exact h rfl

theorem pyStrip_ne_empty_length {u : String} (hu : pyStrip u ≠ "") :
    0 < (pyStrip u).length := by
  have hl : stripList u.data ≠ [] := string_mk_ne_empty hu
  show 0 < (stripList u.data).length
  exact List.length_pos.mpr hl

/-- Claim C3: `get_text_stats` returns `(0, 0)` exactly when the
stripped text is empty; otherwise it returns the length of the
(stripped) text and the number of its whitespace-delimited tokens, and
it is a total function.  (`tools/text_stats.py`, `get_text_stats`.) -/
theorem claim_C3_text_stats (t u : String) (ht : pyStrip t = "")
    (hu : pyStrip u ≠ "") :
    get_text_stats t = (0, 0) ∧
    get_text_stats u = ((pyStrip u).length, countTokens u.data false) ∧
    get_text_stats u ≠ (0, 0) := by
  refine ⟨?_, ?_, ?_⟩
  · simp [get_text_stats, ht]
  · simp only [get_text_stats, if_neg hu]
    rw [pySplitWS_strip, pySplitWS_length]
  · simp only [get_text_stats, if_neg hu]
    intro hcontra
    have h0 : (pyStrip u).length = 0 := congrArg Prod.fst hcontra
    exact absurd h0 (Nat.pos_iff_ne_zero.mp (pyStrip_ne_empty_length hu))

/-- Witness for C3 at the concrete inputs "   " and "hello world". -/
theorem claim_C3_text_stats_witness :
    (pyStrip "   " = "") ∧ (pyStrip "hello world" ≠ "") ∧
    (get_text_stats "   " = (0, 0) ∧
      get_text_stats "hello world"
        = ((pyStrip "hello world").length, countTokens "hello world".data false) ∧
      get_text_stats "hello world" ≠ (0, 0)) :=
  ⟨by decide, by decide, claim_C3_text_stats "   " "hello world" (by decide) (by decide)⟩

/-- Claim C1 (code evidence): the `/sentiment` handler never returns a
`label`/`score`/`note` response.  `api.py` imports `analyze_sentiment`
from `tools/sentiment.py`, whose result dict has keys `language`,
`label`, `score`, `translated_text` but no `note`, so `data["note"]`
raises `KeyError` for every input that passes validation (here:
"I love this", with a successfully loaded model returning POSITIVE/0.9),
and stripped input shorter than 3 characters raises `ValueError` instead
of returning. -/
theorem claim_C1_sentiment_keyerror :
    sentiment_ep (fun _ => some "x") (fun _ => some ("POSITIVE", (9 : ℚ) / 10))
        "I love this"
      = .error (.keyError "note") ∧
    sentiment_ep (fun _ => some "x") (fun _ => some ("POSITIVE", (9 : ℚ) / 10))
        "hi"
      = .error (.valueError "Text is too short for sentiment analysis.") := by
  constructor
  · rfl
  · rfl

/-- Claim C4 (counterexample): an input of length 6 < 20 whose value has
surrounding whitespace is not returned unchanged — `summarize_text`
strips first and returns the stripped text (with or without a loaded
summarizer model). -/
theorem claim_C4_cex_not_unchanged :
    ("  hi  ".length < 20) ∧
    summarize_text Char.isAlpha none "  hi  " ≠ "  hi  " ∧
    summarize_text Char.isAlpha (some (fun _ => some "SUMMARY")) "  hi  "
      ≠ "  hi  " ∧
    summarize_text Char.isAlpha none "  hi  " = "hi" := by
  refine ⟨by decide, by decide, by decide, by decide⟩

/-- Claim C4 (amended): for input whose STRIPPED length is below 20,
`summarize_text` returns the stripped input; for stripped length at
least 20, when the summarizer model is unavailable, or when its call
fails, the result is the deterministic local fallback `simple_summary`
applied to the (truncated-to-4000-characters) stripped input; the
function is total, so it never raises.  (`tools/ai_tools.py`,
`summarize_text`.) -/
theorem claim_C4_summarize_fallback (ia : Char → Bool)
    (o : Option (String → Option String)) (f : String → Option String)
    (t u : String) (ht : (pyStrip t).length < 20)
    (hu : 20 ≤ (pyStrip u).length)
    (hf : f (truncInput (pyStrip u)) = none) :
    summarize_text ia o t = pyStrip t ∧
    summarize_text ia none u = simple_summary (truncInput (pyStrip u)) ∧
    summarize_text ia (some f) u = simple_summary (truncInput (pyStrip u)) := by
  refine ⟨?_, ?_, ?_⟩
  · simp only [summarize_text]
    rw [if_pos ht]
  · simp only [summarize_text]
    rw [if_neg (by omega)]
  · simp only [summarize_text]
    rw [if_neg (by omega)]
    by_cases he : is_mostly_english ia (truncInput (pyStrip u))
    · rw [if_pos he, hf]
    · rw [if_neg he]

/-- Witness for the amended C4 at concrete inputs. -/
theorem claim_C4_summarize_fallback_witness :
    ((pyStrip "ok").length < 20) ∧
    (20 ≤ (pyStrip "abcdefghijklmnopqrstuvwxyz").length) ∧
    ((fun _ => (none : Option String))
        (truncInput (pyStrip "abcdefghijklmnopqrstuvwxyz")) = none) ∧
    (summarize_text Char.isAlpha none "ok" = pyStrip "ok" ∧
      summarize_text Char.isAlpha none "abcdefghijklmnopqrstuvwxyz"
        = simple_summary (truncInput (pyStrip "abcdefghijklmnopqrstuvwxyz")) ∧
      summarize_text Char.isAlpha (some (fun _ => none))
          "abcdefghijklmnopqrstuvwxyz"
        = simple_summary (truncInput (pyStrip "abcdefghijklmnopqrstuvwxyz"))) :=
  ⟨by decide, by decide, rfl,
    claim_C4_summarize_fallback Char.isAlpha none (fun _ => none)
      "ok" "abcdefghijklmnopqrstuvwxyz" (by decide) (by decide) rfl⟩

/-- Claim C5 (counterexample): when the external translation call
succeeds but returns the empty string, `translated` is empty although
the original text "hi" is not — the code stores the translator's result
unchecked. -/
theorem claim_C5_cex_empty_translation :
    (translate_text (fun _ => some "en") (fun _ => some "") "hi" "de").translated
      = "" ∧
    (translate_text (fun _ => some "en") (fun _ => some "") "hi" "de").original
      = "hi" := by
  exact ⟨rfl, rfl⟩

/-- Claim C5 (amended): `translate_text` on input whose stripped text is
empty returns the all-empty record for the target language; on non-empty
input, detection failure makes `source_lang` the sentinel `"auto"` and
translation failure makes `translated` the original (stripped) text,
hence non-empty; the function is total, so it never raises; and
`translated` can be empty only when the original was empty or the
external translator succeeded and itself returned the empty string.
(`tools/ai_tools.py`, `translate_text`.) -/
theorem claim_C5_translate_contract (tl : String)
    (d1 tr1 d2 tr2 d3 tr3 : String → Option String) (t u v : String)
    (ht : pyStrip t = "") (hu : pyStrip u ≠ "")
    (hd1 : d1 (pyStrip u) = none) (htr2 : tr2 (pyStrip u) = none)
    (hv : (translate_text d3 tr3 v tl).translated = "") :
    (∀ d tr : String → Option String,
      translate_text d tr t tl = ⟨none, tl, "", ""⟩) ∧
    (translate_text d1 tr1 u tl).source_lang = some "auto" ∧
    (translate_text d2 tr2 u tl).translated = pyStrip u ∧
    (translate_text d2 tr2 u tl).translated ≠ "" ∧
    (pyStrip v = "" ∨ tr3 (pyStrip v) = some "") := by
  refine ⟨?_, ?_, ?_, ?_, ?_⟩
  · intro d tr
    simp [translate_text, ht]
  · simp only [translate_text, if_neg hu, hd1]
  · simp only [translate_text, if_neg hu, htr2]
  · simp only [translate_text, if_neg hu, htr2]
    exact hu
  · by_cases hv0 : pyStrip v = ""
    · exact Or.inl hv0
    · right
      simp only [translate_text, if_neg hv0] at hv
      cases htr : tr3 (pyStrip v) with
      | none =>
        rw [htr] at hv
        exact absurd hv hv0
      | some r =>
        rw [htr] at hv
        simp only at hv
        subst hv
        rfl

/-- Witness for the amended C5 at concrete inputs. -/
theorem claim_C5_translate_contract_witness :
    (pyStrip " " = "") ∧ (pyStrip "hi" ≠ "") ∧
    ((fun _ => (none : Option String)) (pyStrip "hi") = none) ∧
    ((translate_text (fun _ => some "en") (fun _ => some "x") "" "de").translated
      = "") ∧
    ((∀ d tr : String → Option String,
        translate_text d tr " " "de" = ⟨none, "de", "", ""⟩) ∧
      (translate_text (fun _ => none) (fun _ => none) "hi" "de").source_lang
        = some "auto" ∧
      (translate_text (fun _ => some "en") (fun _ => none) "hi" "de").translated
        = pyStrip "hi" ∧
      (translate_text (fun _ => some "en") (fun _ => none) "hi" "de").translated
        ≠ "" ∧
      (pyStrip "" = "" ∨ (fun _ => some "x") (pyStrip "") = some "")) :=
  ⟨by decide, by decide, rfl, rfl,
    claim_C5_translate_contract "de" (fun _ => none) (fun _ => none)
      (fun _ => some "en") (fun _ => none) (fun _ => some "en") (fun _ => some "x")
      " " "hi" "" (by decide) (by decide) rfl rfl rfl⟩

/-- Claim C6 (counterexample): `/scrape_to_csv` accepts extracted
content of 15 characters — its minimum is 10, not "between 20 and 50" —
and `/scrape_url` is a URL endpoint that performs no scheme validation
at all: a `ftp://` URL is processed, not rejected with a 400. -/
theorem claim_C6_cex_thresholds :
    scrape_to_csv (fun _ => .ok "123456789012345") "data/scrape_x.csv"
        "http://example.com"
      = .ok ("data/scrape_x.csv", [(1, "http://example.com", "123456789012345")]) ∧
    scrape_url_ep (fun _ => .ok "hello") "ftp://example.com"
      = .ok ⟨"ftp://example.com", 5, "hello", "hello"⟩ := by
  exact ⟨rfl, rfl⟩

/-- Claim C6 (amended): the validating URL endpoints `/scrape_url_ai`,
`/scrape_to_csv`, `/analyze_url_ai` and `/analyze_job` reject a URL
whose stripped value does not start with `http://` or `https://` with a
400 before consulting the scraper, and reject thin extracted content
with a 400 — but the per-endpoint minima are 20, 10, 50 and 50
characters respectively (so not all lie between 20 and 50), and
`/scrape_url` validates nothing.  Stated with a content of stripped
length below 10 (hence below every threshold) returned by each scraper
oracle. -/
theorem claim_C6_url_validation
    (url1 url2 t1 dom t2 fname : String)
    (scrA : String → Except String (String × String))
    (scrB scrC : String → Except String String) (ext : String → String)
    (ia : Char → Bool) (summ : Option (String → Option String))
    (d tr : String → Option String) (tt : Option String)
    (h1 : startsHttp (pyStrip url1) = false)
    (h2 : startsHttp (pyStrip url2) = true)
    (h3 : (pyStrip t1).length < 10)
    (h4 : t2.length < 50)
    (hA : scrA (pyStrip url2) = .ok (t1, dom))
    (hB : scrB (pyStrip url2) = .ok t1)
    (hC : scrC (pyStrip url2) = .ok t1)
    (hE : ext (pyStrip url2) = t2) :
    scrape_url_ai scrA ia summ d tr url1 tt
      = .error ⟨400, "URL must start with http:// or https://"⟩ ∧
    scrape_to_csv scrB fname url1
      = .error ⟨400, "URL must start with http:// or https://"⟩ ∧
    analyze_url_ai scrC ia summ d tr url1 tt
      = .error ⟨400, "URL must start with http:// or https://"⟩ ∧
    analyze_job_ep ext ia summ d tr url1
      = .error ⟨400, "URL must start with http:// or https://"⟩ ∧
    scrape_url_ai scrA ia summ d tr url2 tt
      = .error ⟨400, "Extracted text is too short to analyze."⟩ ∧
    scrape_to_csv scrB fname url2
      = .error ⟨400, "Extracted text is too short to save."⟩ ∧
    analyze_url_ai scrC ia summ d tr url2 tt
      = .error ⟨400, "Extracted text is too short to analyze."⟩ ∧
    analyze_job_ep ext ia summ d tr url2
      = .error ⟨400, "Could not extract enough text from URL."⟩ := by
  refine ⟨?_, ?_, ?_, ?_, ?_, ?_, ?_, ?_⟩
  · simp [scrape_url_ai, h1]
  · simp [scrape_to_csv, h1]
  · simp [analyze_url_ai, h1]
  · simp [analyze_job_ep, h1]
  · simp only [scrape_url_ai, h2, Bool.not_true, Bool.false_eq_true, if_false, hA]
    rw [if_pos (by omega)]
  · simp only [scrape_to_csv, h2, Bool.not_true, Bool.false_eq_true, if_false, hB]
    rw [if_pos h3]
  · simp only [analyze_url_ai, h2, Bool.not_true, Bool.false_eq_true, if_false, hC]
    rw [if_pos (by omega)]
  · simp only [analyze_job_ep, h2, Bool.not_true, Bool.false_eq_true, if_false,
      analyze_job_url, hE]
    rw [if_pos h4]

/-- Witness for the amended C6 at concrete inputs. -/
theorem claim_C6_url_validation_witness :
    (startsHttp (pyStrip "ftp://example.com") = false) ∧
    (startsHttp (pyStrip "http://a.com") = true) ∧
    ((pyStrip "short").length < 10) ∧
    (("abc" : String).length < 50) ∧
    (scrape_url_ai (fun _ => .ok ("short", "a.com")) Char.isAlpha none
        (fun _ => none) (fun _ => none) "ftp://example.com" none
      = .error ⟨400, "URL must start with http:// or https://"⟩ ∧
    scrape_to_csv (fun _ => .ok "short") "f.csv" "ftp://example.com"
      = .error ⟨400, "URL must start with http:// or https://"⟩ ∧
    analyze_url_ai (fun _ => .ok "short") Char.isAlpha none
        (fun _ => none) (fun _ => none) "ftp://example.com" none
      = .error ⟨400, "URL must start with http:// or https://"⟩ ∧
    analyze_job_ep (fun _ => "abc") Char.isAlpha none
        (fun _ => none) (fun _ => none) "ftp://example.com"
      = .error ⟨400, "URL must start with http:// or https://"⟩ ∧
    scrape_url_ai (fun _ => .ok ("short", "a.com")) Char.isAlpha none
        (fun _ => none) (fun _ => none) "http://a.com" none
      = .error ⟨400, "Extracted text is too short to analyze."⟩ ∧
    scrape_to_csv (fun _ => .ok "short") "f.csv" "http://a.com"
      = .error ⟨400, "Extracted text is too short to save."⟩ ∧
    analyze_url_ai (fun _ => .ok "short") Char.isAlpha none
        (fun _ => none) (fun _ => none) "http://a.com" none
      = .error ⟨400, "Extracted text is too short to analyze."⟩ ∧
    analyze_job_ep (fun _ => "abc") Char.isAlpha none
        (fun _ => none) (fun _ => none) "http://a.com"
      = .error ⟨400, "Could not extract enough text from URL."⟩) :=
  ⟨by decide, by decide, by decide, by decide,
    claim_C6_url_validation "ftp://example.com" "http://a.com" "short" "a.com"
      "abc" "f.csv" (fun _ => .ok ("short", "a.com")) (fun _ => .ok "short")
      (fun _ => .ok "short") (fun _ => "abc") Char.isAlpha none
      (fun _ => none) (fun _ => none) none
      (by decide) (by decide) (by decide) (by decide) rfl rfl rfl rfl⟩

theorem insertLe_perm (x : String) (l : List String) :
    (insertLe x l).Perm (x :: l) := by
  induction l with
  | nil => exact List.Perm.refl _
  | cons y ys ih =>
    unfold insertLe
    split
    · exact List.Perm.refl _
    · exact (List.Perm.cons y ih).trans (List.Perm.swap x y ys)

theorem sortStr_perm (l : List String) : (sortStr l).Perm l := by
  induction l with
  | nil => exact List.Perm.refl _
  | cons a l ih =>
    exact (insertLe_perm a (sortStr l)).trans (List.Perm.cons a ih)

theorem insertLe_pairwise {x : String} {l : List String}
    (h : l.Pairwise (· ≤ ·)) : (insertLe x l).Pairwise (· ≤ ·) := by
  induction l with
  | nil => simp [insertLe]
  | cons y ys ih =>
    rw [List.pairwise_cons] at h
    unfold insertLe
    split
    · rename_i hxy
      rw [List.pairwise_cons]
      refine ⟨?_, List.pairwise_cons.mpr h⟩
      intro z hz
      rcases List.mem_cons.mp hz with h' | h'
      · subst h'; exact hxy
      · exact le_trans hxy (h.1 z h')
    · rename_i hxy
      have hyx : y ≤ x := le_of_not_le hxy
      rw [List.pairwise_cons]
      refine ⟨?_, ih h.2⟩
      intro z hz
      rcases List.mem_cons.mp ((insertLe_perm x ys).mem_iff.mp hz) with h' | h'
      · subst h'; exact hyx
      · exact h.1 z h'

theorem sortStr_sorted (l : List String) : (sortStr l).Pairwise (· ≤ ·) := by
  induction l with
  | nil => simp [sortStr]
  | cons a l ih => exact insertLe_pairwise ih

theorem sortedScan (keys : List String) (pred : String → Bool) :
    AllElems (fun k => k ∈ keys ∧ pred k = true)
      (sortStr (List.dedup (keys.filter pred))) ∧
    (sortStr (List.dedup (keys.filter pred))).Pairwise (· ≤ ·) ∧
    (sortStr (List.dedup (keys.filter pred))).Nodup := by
  refine ⟨?_, sortStr_sorted _, ?_⟩
  · rw [allElems_iff]
    intro a ha
    have h1 : a ∈ List.dedup (keys.filter pred) :=
      (sortStr_perm _).mem_iff.mp ha
    have h2 : a ∈ keys.filter pred := List.mem_dedup.mp h1
    have h3 := List.mem_filter.mp h2
    exact ⟨h3.1, h3.2⟩
  · exact (sortStr_perm _).nodup_iff.mpr (List.nodup_dedup _)

/-- Claim C9 (counterexample): in the text "german english" the word
"german" is seen first, but `find_languages` returns the matches in the
order of its fixed keyword list, so "english" comes first — the output
is not in first-seen order. -/
theorem claim_C9_cex_language_order :
    find_languages "german english" = ["english", "german"] ∧
    find_languages "german english" ≠ ["german", "english"] := by
  exact ⟨by decide, by decide⟩

/-- Claim C9 (amended): `find_skills` and `find_technologies` return
duplicate-free subsets of their fixed keyword lists in sorted order;
`find_languages` returns its matches (a duplicate-free subset of the
fixed language list) in the order of the fixed list — the scan order —
not in order of first appearance in the text; all three are total and
match by case-insensitive substring membership (substring test against
the lowercased text).  (`tools/job_analyzer.py`.) -/
theorem claim_C9_keyword_scans (text : String) :
    AllElems (fun k => k ∈ SKILL_KEYWORDS ∧ strContains (pyLower text) k = true)
      (find_skills text) ∧
    (find_skills text).Pairwise (· ≤ ·) ∧
    (find_skills text).Nodup ∧
    AllElems (fun k => k ∈ TECH ∧ strContains (pyLower text) k = true)
      (find_technologies text) ∧
    (find_technologies text).Pairwise (· ≤ ·) ∧
    (find_technologies text).Nodup ∧
    find_languages text
      = LANGS.filter (fun lang => strContains (pyLower text) lang) ∧
    AllElems (fun k => k ∈ LANGS ∧ strContains (pyLower text) k = true)
      (find_languages text) ∧
    (find_languages text).Nodup := by
  obtain ⟨s1, s2, s3⟩ := sortedScan SKILL_KEYWORDS (fun k => strContains (pyLower text) k)
  obtain ⟨t1, t2, t3⟩ := sortedScan TECH (fun k => strContains (pyLower text) k)
  refine ⟨s1, s2, s3, t1, t2, t3, rfl, ?_, ?_⟩
  · rw [allElems_iff]
    intro a ha
    have h := List.mem_filter.mp ha
    exact ⟨h.1, h.2⟩
  · exact List.Nodup.filter _ (by decide)

theorem truncAtSpace_len (l : List Char) :
    (truncAtSpace 400 l).length ≤ 403 := by
  unfold truncAtSpace
  have hcut : (l.take 400).length ≤ 400 := by
    rw [List.length_take]
    exact min_le_left _ _
  cases h : rfindSpace (l.take 400) with
  | none =>
    simp only [h, List.length_append]
    simp [hcut]
  | some i =>
    simp only [h, List.length_append, List.length_cons, List.length_nil]
    have h2 : ((l.take 400).take i).length ≤ (l.take 400).length := by
      rw [List.length_take]
      exact min_le_right _ _
    omega

theorem sentenceExcerpt_len (s : List Char) :
    (sentenceExcerpt 3 400 s).length ≤ 403 := by
  simp only [sentenceExcerpt]
  split
  · exact truncAtSpace_len _
  · rename_i hle
    omega

theorem simple_summary_small {s : String}
    (h : (stripList s.data).length ≤ 400) :
    simple_summary s = pyStrip s := by
  simp only [simple_summary, pyStrip]
  by_cases he : (stripList s.data).isEmpty
  · simp [he, List.isEmpty_iff.mp he]
  · simp [he, h]

theorem simple_summary_large {s : String}
    (h : 400 < (stripList s.data).length) :
    simple_summary s = ⟨sentenceExcerpt 3 400 (stripList s.data)⟩ := by
  have he : ¬ (stripList s.data).isEmpty := by
    intro hc
    rw [List.isEmpty_iff.mp hc] at h
    simp at h
  simp only [simple_summary]
  rw [if_neg (by simpa using he), if_neg (by omega)]

/-- Claim C10: with its default parameters (3 sentences, 400
characters), `simple_summary` always returns at most 403 characters: the
stripped input itself when that fits in 400 characters, and otherwise
the sentence-limited excerpt, which — when still over 400 characters —
is cut to 400, cut back to the last space if any, and suffixed with the
three-character ellipsis.  (`tools/ai_tools.py`, `simple_summary`.) -/
theorem claim_C10_simple_summary (t u : String)
    (h1 : (pyStrip t).length ≤ 400) (h2 : 400 < (pyStrip u).length) :
    (∀ v : String, (simple_summary v).length ≤ 403) ∧
    simple_summary t = pyStrip t ∧
    simple_summary u = ⟨sentenceExcerpt 3 400 (stripList u.data)⟩ := by
  refine ⟨?_, simple_summary_small h1, simple_summary_large h2⟩
  intro v
  by_cases h : (stripList v.data).length ≤ 400
  · rw [simple_summary_small h]
    show (stripList v.data).length ≤ 403
    omega
  · rw [simple_summary_large (by omega)]
    exact sentenceExcerpt_len _

set_option maxRecDepth 10000 in
/-- Witness for C10: a short input and a 401-character input. -/
theorem claim_C10_simple_summary_witness :
    ((pyStrip "hello there").length ≤ 400) ∧
    (400 < (pyStrip (String.mk (List.replicate 401 'a'))).length) ∧
    ((∀ v : String, (simple_summary v).length ≤ 403) ∧
      simple_summary "hello there" = pyStrip "hello there" ∧
      simple_summary (String.mk (List.replicate 401 'a'))
        = ⟨sentenceExcerpt 3 400 (stripList (String.mk (List.replicate 401 'a')).data)⟩) :=
  ⟨by decide, by decide,
    claim_C10_simple_summary "hello there" (String.mk (List.replicate 401 'a'))
      (by decide) (by decide)⟩

/-- The `Counter` built by `extract_keywords_simple`, keyed in
first-encountered order. -/
def kwCounts (text : String) : List (String × Nat) :=
  countOcc (kwFiltered text)

/-- The frequency of a token in the text's keyword counter. -/
def kwCount (text : String) (w : String) : Nat :=
  ((kwCounts text).lookup w).getD 0

/-- Ranking used by `most_common`: either strictly more frequent, or
equally frequent and encountered first (entry order in the counter,
expressed as a two-element sublist). -/
def rankRel (L : List (String × Nat)) (a b : String × Nat) : Prop :=
  b.2 < a.2 ∨ (a.2 = b.2 ∧ [a, b].Sublist L)

/-- Keyword order claimed for the output: count strictly decreasing, or
equal counts with the first keyword encountered first. -/
def kwOrder (text : String) (a b : String) : Prop :=
  kwCount text b < kwCount text a ∨
  (kwCount text a = kwCount text b ∧
   [(a, kwCount text a), (b, kwCount text b)].Sublist (kwCounts text))

theorem insertDesc_perm (x : String × Nat) (l : List (String × Nat)) :
    (insertDesc x l).Perm (x :: l) := by
  induction l with
  | nil => exact List.Perm.refl _
  | cons y ys ih =>
    unfold insertDesc
    split
    · exact List.Perm.refl _
    · exact (List.Perm.cons y ih).trans (List.Perm.swap x y ys)

theorem sortLoop_perm :
    ∀ (q acc : List (String × Nat)),
      (q.foldl (fun a x => insertDesc x a) acc).Perm (acc ++ q) := by
  intro q
  induction q with
  | nil => intro acc; simp
  | cons x q' ih =>
    intro acc
    have h1 := ih (insertDesc x acc)
    have h2 : (insertDesc x acc ++ q').Perm ((x :: acc) ++ q') :=
      (insertDesc_perm x acc).append_right q'
    have h3 : ((x :: acc) ++ q').Perm (acc ++ x :: q') := by
      simpa using List.perm_middle.symm
    exact (h1.trans h2).trans h3

theorem sortByCountDesc_perm (l : List (String × Nat)) :
    (sortByCountDesc l).Perm l := by
  simpa [sortByCountDesc] using sortLoop_perm l []

theorem mem_insertDesc {z x : String × Nat} {acc : List (String × Nat)} :
    z ∈ insertDesc x acc ↔ z = x ∨ z ∈ acc := by
  rw [(insertDesc_perm x acc).mem_iff, List.mem_cons]

theorem insertDesc_pairwise {L : List (String × Nat)} {x : String × Nat}
    {acc : List (String × Nat)} (hacc : acc.Pairwise (rankRel L))
    (hbefore : ∀ y ∈ acc, [y, x].Sublist L) :
    (insertDesc x acc).Pairwise (rankRel L) := by
  induction acc with
  | nil => simp [insertDesc]
  | cons y ys ih =>
    rw [List.pairwise_cons] at hacc
    unfold insertDesc
    split
    · rename_i hlt
      rw [List.pairwise_cons]
      refine ⟨?_, List.pairwise_cons.mpr hacc⟩
      intro z hz
      rcases List.mem_cons.mp hz with h' | h'
      · subst h'
        exact Or.inl hlt
      · rcases hacc.1 z h' with h'' | h''
        · exact Or.inl (lt_trans h'' hlt)
        · exact Or.inl (h''.1 ▸ hlt)
    · rename_i hnlt
      have hle : x.2 ≤ y.2 := Nat.le_of_not_lt hnlt
      rw [List.pairwise_cons]
      refine ⟨?_, ih hacc.2 (fun y' hy' => hbefore y' (List.mem_cons_of_mem y hy'))⟩
      intro z hz
      rcases mem_insertDesc.mp hz with h' | h'
      · subst h'
        by_cases hxy : z.2 < y.2
        · exact Or.inl hxy
        · have : y.2 = z.2 := Nat.le_antisymm (Nat.le_of_not_lt hxy) hle
          exact Or.inr ⟨this, hbefore y (List.mem_cons_self y ys)⟩
      · exact hacc.1 z h'

theorem pairwise_pairs_sublist (l : List (String × Nat)) :
    l.Pairwise (fun a b => [a, b].Sublist l) := by
  induction l with
  | nil => exact List.Pairwise.nil
  | cons a t ih =>
    rw [List.pairwise_cons]
    constructor
    · intro b hb
      exact List.Sublist.cons₂ a (List.singleton_sublist.mpr hb)
    · exact ih.imp (fun h => h.cons a)

theorem sortLoop_pairwise {L : List (String × Nat)} :
    ∀ (q acc : List (String × Nat)), acc.Pairwise (rankRel L) →
      (∀ y ∈ acc, ∀ x ∈ q, [y, x].Sublist L) →
      q.Pairwise (fun a b => [a, b].Sublist L) →
      (q.foldl (fun a x => insertDesc x a) acc).Pairwise (rankRel L) := by
  intro q
  induction q with
  | nil =>
    intro acc hacc _ _
    exact hacc
  | cons x q' ih =>
    intro acc hacc h2 hq
    rw [List.pairwise_cons] at hq
    refine ih (insertDesc x acc) ?_ ?_ hq.2
    · exact insertDesc_pairwise hacc (fun y hy => h2 y hy x (List.mem_cons_self x q'))
    · intro y hy z hz
      rcases mem_insertDesc.mp hy with h' | h'
      · subst h'
        exact hq.1 z hz
      · exact h2 y h' z (List.mem_cons_of_mem x hz)

theorem sortByCountDesc_pairwise (L : List (String × Nat)) :
    (sortByCountDesc L).Pairwise (rankRel L) := by
  refine sortLoop_pairwise L [] List.Pairwise.nil ?_ (pairwise_pairs_sublist L)
  intro y hy
  cases hy

theorem bumpCount_keys (acc : List (String × Nat)) (w : String) :
    (bumpCount acc w).map Prod.fst =
      if w ∈ acc.map Prod.fst then acc.map Prod.fst
      else acc.map Prod.fst ++ [w] := by
  induction acc with
  | nil => simp [bumpCount]
  | cons p rest ih =>
    obtain ⟨k, v⟩ := p
    unfold bumpCount
    by_cases hk : k = w
    · subst hk
      simp
    · rw [if_neg hk]
      simp only [List.map_cons]
      rw [ih]
      by_cases hw : w ∈ rest.map Prod.fst
      · rw [if_pos hw, if_pos (by simp [hw])]
      · rw [if_neg hw, if_neg (by simp [hw, Ne.symm hk])]
        simp

theorem countOccAux_keys_nodup :
    ∀ (l : List String) (acc : List (String × Nat)),
      (acc.map Prod.fst).Nodup → ((l.foldl bumpCount acc).map Prod.fst).Nodup := by
  intro l
  induction l with
  | nil =>
    intro acc hacc
    exact hacc
  | cons w l' ih =>
    intro acc hacc
    refine ih (bumpCount acc w) ?_
    rw [bumpCount_keys]
    by_cases hw : w ∈ acc.map Prod.fst
    · rw [if_pos hw]
      exact hacc
    · rw [if_neg hw]
      simp [List.nodup_append, hacc, hw]

theorem countOcc_keys_nodup (l : List String) :
    ((countOcc l).map Prod.fst).Nodup :=
  countOccAux_keys_nodup l [] (by simp)

theorem countOccAux_keys_sub :
    ∀ (l : List String) (acc : List (String × Nat)),
      ∀ w ∈ (l.foldl bumpCount acc).map Prod.fst,
        w ∈ acc.map Prod.fst ∨ w ∈ l := by
  intro l
  induction l with
  | nil =>
    intro acc w hw
    exact Or.inl hw
  | cons x l' ih =>
    intro acc w hw
    rcases ih (bumpCount acc x) w hw with h | h
    · rw [bumpCount_keys] at h
      by_cases hx : x ∈ acc.map Prod.fst
      · rw [if_pos hx] at h
        exact Or.inl h
      · rw [if_neg hx] at h
        rcases List.mem_append.mp h with h' | h'
        · exact Or.inl h'
        · right
          simp only [List.mem_singleton] at h'
          simp [h']
    · right
      exact List.mem_cons_of_mem x h

theorem countOcc_keys_sub (l : List String) :
    ∀ w ∈ (countOcc l).map Prod.fst, w ∈ l := by
  intro w hw
  rcases countOccAux_keys_sub l [] w hw with h | h
  · cases h
  · exact h

theorem bumpCount_keys_mono {acc : List (String × Nat)} {w v : String}
    (h : v ∈ acc.map Prod.fst) : v ∈ (bumpCount acc w).map Prod.fst := by
  rw [bumpCount_keys]
  split
  · exact h
  · exact List.mem_append.mpr (Or.inl h)

theorem bumpCount_keys_self (acc : List (String × Nat)) (w : String) :
    w ∈ (bumpCount acc w).map Prod.fst := by
  rw [bumpCount_keys]
  split
  · assumption
  · exact List.mem_append.mpr (Or.inr (List.mem_singleton.mpr rfl))

theorem foldl_bump_keys_mono :
    ∀ (l : List String) (acc : List (String × Nat)) {v : String},
      v ∈ acc.map Prod.fst → v ∈ (l.foldl bumpCount acc).map Prod.fst := by
  intro l
  induction l with
  | nil =>
    intro acc v hv
    exact hv
  | cons x l' ih =>
    intro acc v hv
    exact ih (bumpCount acc x) (bumpCount_keys_mono hv)

theorem countOccAux_keys_complete :
    ∀ (l : List String) (acc : List (String × Nat)),
      ∀ w ∈ l, w ∈ (l.foldl bumpCount acc).map Prod.fst := by
  intro l
  induction l with
  | nil =>
    intro acc w hw
    cases hw
  | cons x l' ih =>
    intro acc w hw
    rcases List.mem_cons.mp hw with h | h
    · subst h
      exact foldl_bump_keys_mono l' (bumpCount acc w) (bumpCount_keys_self acc w)
    · exact ih (bumpCount acc x) w h

theorem countOcc_keys_complete (l : List String) :
    ∀ w ∈ l, w ∈ (countOcc l).map Prod.fst :=
  countOccAux_keys_complete l []

theorem lookup_eq_of_mem {l : List (String × Nat)}
    (hnd : (l.map Prod.fst).Nodup) {k : String} {v : Nat}
    (hm : (k, v) ∈ l) : l.lookup k = some v := by
  induction l with
  | nil => cases hm
  | cons p t ih =>
    obtain ⟨a, b⟩ := p
    rw [List.map_cons, List.nodup_cons] at hnd
    rcases List.mem_cons.mp hm with h | h
    · rw [Prod.mk.injEq] at h
      obtain ⟨h1, h2⟩ := h
      subst h1; subst h2
      simp [List.lookup]
    · have hka : k ≠ a := by
        intro hcontra
        subst hcontra
        exact hnd.1 (List.mem_map.mpr ⟨(k, v), h, rfl⟩)
      simp only [List.lookup, beq_eq_false_iff_ne.mpr hka]
      exact ih hnd.2 h

theorem extract_keywords_eq (text : String) (n : Nat) :
    extract_keywords_simple text n
      = ((sortByCountDesc (kwCounts text)).take n).map Prod.fst := rfl

/-- Claim C8: `extract_keywords_simple` lowercases the text, tokenizes
it into alphabetic runs of length at least 3, drops stopwords, counts
frequencies and returns the `top_n` most frequent tokens ordered by
decreasing count with ties in first-encountered order; it is a pure
function, so two calls on the same text give identical results.
Soundness: at most `top_n` distinct surviving tokens, internally
ordered by `kwOrder`.  Completeness: the output length is exactly
`min top_n` (number of distinct surviving tokens), every surviving
token is a key of the counter, and the output keys together with the
keys of the dropped tail of the sorted counter are a permutation of
all counter keys.  Maximality: every dropped counter entry ranks
`kwOrder`-below every returned keyword, so no excluded token is more
frequent than an included one (ties resolved by first encounter).
(`api.py`, `extract_keywords_simple`.) -/
theorem claim_C8_extract_keywords (text : String) (n : Nat) :
    extract_keywords_simple text n = extract_keywords_simple text n ∧
    (extract_keywords_simple text n).length ≤ n ∧
    (extract_keywords_simple text n).Nodup ∧
    AllElems
      (fun k => k ∈ kwTokens text ∧ stopwords.contains k = false ∧ 3 ≤ k.length)
      (extract_keywords_simple text n) ∧
    (extract_keywords_simple text n).Pairwise (kwOrder text) ∧
    (extract_keywords_simple text n).length
      = min n ((kwCounts text).map Prod.fst).length ∧
    AllElems (fun w => w ∈ (kwCounts text).map Prod.fst) (kwFiltered text) ∧
    (extract_keywords_simple text n
        ++ ((sortByCountDesc (kwCounts text)).drop n).map Prod.fst).Perm
      ((kwCounts text).map Prod.fst) ∧
    AllElems
      (fun p => AllElems (fun k => kwOrder text k p.1) (extract_keywords_simple text n))
      ((sortByCountDesc (kwCounts text)).drop n) := by
  have hperm := sortByCountDesc_perm (kwCounts text)
  have hmem_sort : ∀ p ∈ sortByCountDesc (kwCounts text), p ∈ kwCounts text :=
    fun p hp => hperm.mem_iff.mp hp
  have hcount : ∀ p ∈ sortByCountDesc (kwCounts text), kwCount text p.1 = p.2 := by
    intro p hp
    have hm : (p.1, p.2) ∈ kwCounts text := by
      rw [Prod.mk.eta]
      exact hmem_sort p hp
    have hl : (kwCounts text).lookup p.1 = some p.2 :=
      lookup_eq_of_mem (countOcc_keys_nodup (kwFiltered text)) hm
    simp [kwCount, hl]
  refine ⟨rfl, ?_, ?_, ?_, ?_, ?_, ?_, ?_, ?_⟩
  · rw [extract_keywords_eq, List.length_map, List.length_take]
    exact min_le_left _ _
  · rw [extract_keywords_eq, List.map_take]
    have h1 : ((sortByCountDesc (kwCounts text)).map Prod.fst).Nodup :=
      (hperm.map Prod.fst).nodup_iff.mpr (countOcc_keys_nodup (kwFiltered text))
    exact List.Nodup.sublist (List.take_sublist _ _) h1
  · rw [extract_keywords_eq, allElems_iff]
    intro k hk
    obtain ⟨p, hp, hpk⟩ := List.mem_map.mp hk
    subst hpk
    have hpL : p ∈ kwCounts text := hmem_sort p (List.take_subset n _ hp)
    have hkf : p.1 ∈ kwFiltered text :=
      countOcc_keys_sub (kwFiltered text) p.1 (List.mem_map.mpr ⟨p, hpL, rfl⟩)
    have h2 := List.mem_filter.mp hkf
    refine ⟨h2.1, ?_, ?_⟩
    · simpa using h2.2
    · obtain ⟨rl, hrl, hrlk⟩ := List.mem_map.mp h2.1
      have h3 := List.mem_filter.mp hrl
      have h4 : 3 ≤ rl.length := by simpa using h3.2
      rw [← hrlk]
      exact h4
  · rw [extract_keywords_eq, List.pairwise_map]
    have hpw : ((sortByCountDesc (kwCounts text)).take n).Pairwise
        (rankRel (kwCounts text)) :=
      List.Pairwise.sublist (List.take_sublist _ _)
        (sortByCountDesc_pairwise (kwCounts text))
    refine List.Pairwise.imp_of_mem ?_ hpw
    intro p q hp hq hrel
    have hcp := hcount p (List.take_subset n _ hp)
    have hcq := hcount q (List.take_subset n _ hq)
    unfold kwOrder
    rw [hcp, hcq]
    simpa [rankRel, Prod.mk.eta] using hrel
  · rw [extract_keywords_eq, List.length_map, List.length_take, List.length_map,
      hperm.length_eq]
  · rw [allElems_iff]
    exact countOcc_keys_complete (kwFiltered text)
  · rw [extract_keywords_eq, ← List.map_append, List.take_append_drop]
    exact hperm.map Prod.fst
  · have hcross : ∀ q ∈ (sortByCountDesc (kwCounts text)).take n,
        ∀ p ∈ (sortByCountDesc (kwCounts text)).drop n,
        rankRel (kwCounts text) q p := by
      have hpw := sortByCountDesc_pairwise (kwCounts text)
      rw [← List.take_append_drop n (sortByCountDesc (kwCounts text)),
        List.pairwise_append] at hpw
      exact hpw.2.2
    rw [allElems_iff]
    intro p hp
    rw [allElems_iff]
    intro k hk
    rw [extract_keywords_eq] at hk
    obtain ⟨q, hq, hqk⟩ := List.mem_map.mp hk
    subst hqk
    have h1 := hcross q hq p hp
    have hcq := hcount q (List.take_subset n _ hq)
    have hcp := hcount p (List.drop_subset n _ hp)
    unfold kwOrder
    rw [hcq, hcp]
    simpa [rankRel, Prod.mk.eta] using h1

end AutoEngine
